import Mathlib

/-!
# Shallow embedding of `migration-tcp.c`

The TCP transport of the live-migration code: the socket I/O adapter
(`socket_write`, `socket_read`, `socket_errno`, `tcp_close`), the outgoing
connector (`tcp_start_outgoing_migration`, `tcp_wait_for_connect`), the
incoming acceptor (`tcp_accept_incoming_migration`) and the fault-tolerance
callbacks (`ft_trans_incoming`, `ft_trans_reset`, `ft_trans_schedule_replay`).

Every function of the C file becomes a function on an explicit `World`
(the process-wide variables the file touches, the event-loop registrations and
the chronological list of calls made to collaborators).  Results of system
calls and of collaborators are inputs of the functions: a retry loop consumes
a list of outcomes, one per iteration, and returns `none` only when that list
is used up before the loop ends.
-/

namespace MigrationTcp

/-! ## Machine integers -/

/-- Largest value of the C type `int`. -/
def INT_MAX : Int := 2147483647

/-- Conversion of a wider signed value (`ssize_t`) to the C type `int`:
two's complement on 32 bits. -/
def toInt32 (x : Int) : Int := (x + 2147483648) % 4294967296 - 2147483648

/-! ## Declarations the file takes from its headers -/

/-- The platform error codes the file compares against.  Their values come
from the platform's `errno.h`, so they are parameters of the model. -/
structure Errnos where
  EINTR : Int
  EINPROGRESS : Int
  EWOULDBLOCK : Int
  EINVAL : Int

/-- What every platform guarantees of the codes of the retry loops: they are positive and
`EINTR` differs from the two "in progress" codes. -/
def Errnos.wf (E : Errnos) : Prop :=
  0 < E.EINTR ∧ 0 < E.EINPROGRESS ∧ 0 < E.EWOULDBLOCK ∧
    E.EINTR ≠ E.EINPROGRESS ∧ E.EINTR ≠ E.EWOULDBLOCK

instance (E : Errnos) : Decidable E.wf := by
  unfold Errnos.wf; infer_instance

/-- The Linux values of the codes (`EWOULDBLOCK` is `EAGAIN`). -/
def linux : Errnos :=
  { EINTR := 4, EINPROGRESS := 115, EWOULDBLOCK := 11, EINVAL := 22 }

/-- Modelled from the spec: the enumeration of the process-wide `ft_mode`
is declared in `ft_trans_file.h`, which is not part of the sources; the spec
lists the values OFF, INIT, TRANSACTION_RECEIVING and ERROR, and the file
names them `FT_OFF`, `FT_INIT`, `FT_TRANSACTION_RECV` and `FT_ERROR`. -/
inductive FtMode
  | FT_ERROR
  | FT_OFF
  | FT_INIT
  | FT_TRANSACTION_RECV
  deriving DecidableEq, Repr

/-- The migration status; the file only ever stores `MIG_STATE_ACTIVE`. -/
inductive MigStatus
  | MIG_STATE_ACTIVE
  deriving DecidableEq, Repr

/-- The functions of this file that are handed to the event loop. -/
inductive Callback
  | tcp_wait_for_connect
  | ft_trans_incoming
  | tcp_accept_incoming_migration
  deriving DecidableEq, Repr

/-- A `QEMUFile *` handle, identified by the call that produced it. -/
inductive QEMUFile
  | socket (c : Int)
  | ft_trans (s c : Int)
  deriving DecidableEq, Repr

/-! ## The world -/

/-- Calls made to the operating system and to collaborators, as recorded in
the trace. -/
inductive Event
  | send (fd : Int) (size : Nat)
  | recv (fd : Int) (size : Nat)
  | close (fd : Int)
  | getsockopt (fd : Int)
  | connect (fd : Int)
  | qemu_accept (s : Int)
  | setsockopt (s : Int)
  | bind (s : Int)
  | listen (s : Int)
  | parse_host_port
  | qemu_mallocz
  | qemu_socket
  | socket_set_nonblock (fd : Int)
  | socket_set_nodelay (fd : Int)
  | qemu_free
  | migrate_fd_monitor_suspend
  | migrate_fd_error
  | migrate_fd_connect
  | qemu_set_fd_handler2 (fd : Int) (fd_read fd_write : Option Callback)
  | qemu_fopen_socket (c : Int)
  | qemu_fopen_ft_trans (s c : Int)
  | process_incoming_migration (f : QEMUFile)
  | qemu_ft_trans_begin (f : QEMUFile)
  | qemu_fclose (f : QEMUFile)
  | qemu_file_get_notify (f : QEMUFile)
  | event_tap_schedule_replay
  | qemu_add_vm_change_state_handler (f : QEMUFile)
  | qemu_del_vm_change_state_handler
  | fprintf_stderr
  deriving DecidableEq, Repr

/-- The read and write callbacks the event loop holds for one descriptor. -/
structure FdHandler where
  fd_read : Option Callback
  fd_write : Option Callback
  deriving DecidableEq, Repr

/-- No callback at all: the descriptor is deregistered. -/
def FdHandler.none : FdHandler := ⟨Option.none, Option.none⟩

/-- The state outside the endpoint: the globals `ft_mode`, `autostart` and
`vmstate`, the thread's `errno`, the event loop's table of descriptor
callbacks, and the calls made so far, oldest first. -/
structure World where
  ft_mode : FtMode
  errno : Int
  autostart : Int
  vmstate : Option QEMUFile
  handlers : Int → FdHandler
  trace : List Event

/-- The fields of `FdMigrationState` the file assigns.  The function pointers
`get_error`, `write`, `read` and `close` are always bound to `socket_errno`,
`socket_write`, `socket_read` and `tcp_close`, so a call through them is a call
of that function. -/
structure FdMigrationState where
  fd : Int
  state : MigStatus
  bandwidth_limit : Int
  blk : Int
  shared : Int
  deriving DecidableEq, Repr

/-- Outcome of a system call that returns a count or a descriptor: success
with a non-negative value, or failure, which returns -1 and stores the error
code in `errno`. -/
inductive Outcome
  | ok (n : Nat)
  | fail (e : Int)
  deriving DecidableEq, Repr

/-- Outcome of `getsockopt(SO_ERROR)`: success returns 0 and stores the
option value, failure returns -1 and stores the error code in `errno`. -/
inductive SockoptOutcome
  | ok (val : Int)
  | fail (e : Int)
  deriving DecidableEq, Repr

/-- Record one call in the trace. -/
def World.emit (w : World) (e : Event) : World :=
  { w with trace := w.trace ++ [e] }

/-- One system call with the given outcome: the call is recorded, the return
value is the count (or -1), and a failure overwrites `errno`. -/
def sys_call (ev : Event) (o : Outcome) (w : World) : Int × World :=
  match o with
  | .ok n => ((n : Int), w.emit ev)
  | .fail e => (-1, { w.emit ev with errno := e })

/-- The `socket_error()` macro: the current `errno`. -/
def socket_error (w : World) : Int := w.errno

/-- The call `close(fd)`; the file discards its result everywhere. -/
def sys_close (fd : Int) (w : World) : World := w.emit (.close fd)

/-- The call `qemu_set_fd_handler2(fd, NULL, fd_read, fd_write, arg)`: it
replaces the callbacks held for `fd`. -/
def qemu_set_fd_handler2 (fd : Int) (fd_read fd_write : Option Callback)
    (w : World) : World :=
  { w with
    handlers := Function.update w.handlers fd ⟨fd_read, fd_write⟩
    trace := w.trace ++ [.qemu_set_fd_handler2 fd fd_read fd_write] }

/-! ## Socket I/O adapter -/

/-- Source `socket_errno`. -/
def socket_errno (_s : FdMigrationState) (w : World) : Int := socket_error w

/-- Source `socket_write`: `return send(s->fd, buf, size, 0);`, the `ssize_t`
result converted to the `int` return type. -/
def socket_write (s : FdMigrationState) (size : Nat) (o : Outcome) (w : World) :
    Int × World :=
  let r := sys_call (.send s.fd size) o w
  (toInt32 r.1, r.2)

/-- The `do ... while (len == -1 && socket_error() == EINTR)` loop of
`socket_read`: one `recv` per outcome consumed.  Returns `len`, the world and
the outcomes not consumed. -/
def socket_read_loop (E : Errnos) (s : FdMigrationState) (size : Nat) :
    List Outcome → World → Option (Int × World × List Outcome)
  | [], _ => none
  | o :: rest, w =>
    let r := sys_call (.recv s.fd size) o w
    if r.1 = -1 ∧ socket_error r.2 = E.EINTR then
      socket_read_loop E s size rest r.2
    else
      some (r.1, r.2, rest)

/-- Source `socket_read`. -/
def socket_read (E : Errnos) (s : FdMigrationState) (size : Nat)
    (os : List Outcome) (w : World) : Option (Int × World × List Outcome) :=
  match socket_read_loop E s size os w with
  | none => none
  | some (len, w1, rest) =>
    let len := if len = -1 then -socket_error w1 else len
    some (toInt32 len, w1, rest)

/-- Source `tcp_close`. -/
def tcp_close (s : FdMigrationState) (w : World) : Int × FdMigrationState × World :=
  if s.fd ≠ -1 ∧ w.ft_mode ≠ FtMode.FT_INIT then
    (0, { s with fd := -1 }, sys_close s.fd w)
  else
    (0, s, w)

/-! ## Outgoing connector -/

/-- One call `getsockopt(fd, SOL_SOCKET, SO_ERROR, &val, &valsize)`: returns
the return value and the content of `val` afterwards (`val` is written only on
success). -/
def sys_getsockopt (fd : Int) (o : SockoptOutcome) (val : Int) (w : World) :
    Int × Int × World :=
  match o with
  | .ok v => (0, v, w.emit (.getsockopt fd))
  | .fail e => (-1, val, { w.emit (.getsockopt fd) with errno := e })

/-- The `do ... while (ret == -1 && (s->get_error(s)) == EINTR)` loop of
`tcp_wait_for_connect`.  Returns `ret`, `val`, the world and the outcomes not
consumed. -/
def getsockopt_loop (E : Errnos) (s : FdMigrationState) :
    Int → List SockoptOutcome → World → Option (Int × Int × World × List SockoptOutcome)
  | _, [], _ => none
  | val, o :: rest, w =>
    let r := sys_getsockopt s.fd o val w
    if r.1 = -1 ∧ socket_errno s r.2.2 = E.EINTR then
      getsockopt_loop E s r.2.1 rest r.2.2
    else
      some (r.1, r.2.1, r.2.2, rest)

/-- Source `tcp_wait_for_connect`.  The argument `val` is the indeterminate
initial content of the local variable `val`. -/
def tcp_wait_for_connect (E : Errnos) (s : FdMigrationState) (val : Int)
    (os : List SockoptOutcome) (w : World) : Option (World × List SockoptOutcome) :=
  match getsockopt_loop E s val os w with
  | none => none
  | some (ret, val, w1, rest) =>
    if ret < 0 then
      some (w1.emit .migrate_fd_error, rest)
    else
      let w2 := qemu_set_fd_handler2 s.fd none none w1
      if val = 0 then
        some (w2.emit .migrate_fd_connect, rest)
      else
        some (w2.emit .migrate_fd_error, rest)

/-- The `do ... while (ret == -EINTR)` loop of `tcp_start_outgoing_migration`.
Returns `ret`, the world and the outcomes not consumed. -/
def connect_loop (E : Errnos) (s : FdMigrationState) :
    List Outcome → World → Option (Int × World × List Outcome)
  | [], _ => none
  | o :: rest, w =>
    let r := sys_call (.connect s.fd) o w
    let ret := if r.1 = -1 then -(socket_errno s r.2) else r.1
    let w1 :=
      if ret = -E.EINPROGRESS ∨ ret = -E.EWOULDBLOCK then
        qemu_set_fd_handler2 s.fd none (some .tcp_wait_for_connect) r.2
      else r.2
    if ret = -E.EINTR then connect_loop E s rest w1 else some (ret, w1, rest)

/-- Source `tcp_start_outgoing_migration`.  `parsed` is the return value of
`parse_host_port`, `sock` the outcome of `qemu_socket` and `conn` the outcomes
of the successive `connect` calls.  The result is `none` for the C function's
`NULL` and the endpoint for `&s->mig_state`. -/
def tcp_start_outgoing_migration (E : Errnos) (parsed : Int)
    (bandwidth_limit detach blk inc : Int) (sock : Outcome) (conn : List Outcome)
    (w : World) : Option (Option FdMigrationState × World × List Outcome) :=
  let w := w.emit .parse_host_port
  if parsed < 0 then some (none, w, conn)
  else
    let w := w.emit .qemu_mallocz
    let r := sys_call .qemu_socket sock w
    let s : FdMigrationState :=
      { fd := r.1, state := .MIG_STATE_ACTIVE, bandwidth_limit := bandwidth_limit,
        blk := blk, shared := inc }
    if s.fd = -1 then some (none, r.2.emit .qemu_free, conn)
    else
      let w := r.2.emit (.socket_set_nonblock s.fd)
      let w := if detach = 0 then w.emit .migrate_fd_monitor_suspend else w
      match connect_loop E s conn w with
      | none => none
      | some (ret, w, rest) =>
        if ret < 0 ∧ ret ≠ -E.EINPROGRESS ∧ ret ≠ -E.EWOULDBLOCK then
          some (some s, w.emit .migrate_fd_error, rest)
        else if ret ≥ 0 then
          some (some s, w.emit .migrate_fd_connect, rest)
        else
          some (some s, w, rest)

/-! ## Fault-tolerance callbacks -/

/-- Source `ft_trans_incoming`; `has_error` is the result of
`qemu_file_has_error(f)`. -/
def ft_trans_incoming (f : QEMUFile) (has_error : Bool) (w : World) : World :=
  let w := w.emit (.qemu_file_get_notify f)
  if has_error then
    { w with ft_mode := .FT_ERROR }.emit (.qemu_fclose f)
  else w

/-- Source `ft_trans_reset`. -/
def ft_trans_reset (f : QEMUFile) (running _reason : Int) (w : World) : World :=
  if running ≠ 0 then
    let w := if w.ft_mode ≠ .FT_ERROR then w.emit (.qemu_fclose f) else w
    { w with ft_mode := .FT_OFF }.emit .qemu_del_vm_change_state_handler
  else w

/-- Source `ft_trans_schedule_replay`. -/
def ft_trans_schedule_replay (f : QEMUFile) (w : World) : World :=
  let w := w.emit .event_tap_schedule_replay
  { w with vmstate := some f }.emit (.qemu_add_vm_change_state_handler f)

/-! ## Incoming acceptor -/

/-- The `do ... while (c == -1 && socket_error() == EINTR)` loop of
`tcp_accept_incoming_migration`. -/
def accept_loop (E : Errnos) (s : Int) :
    List Outcome → World → Option (Int × World × List Outcome)
  | [], _ => none
  | o :: rest, w =>
    let r := sys_call (.qemu_accept s) o w
    if r.1 = -1 ∧ socket_error r.2 = E.EINTR then
      accept_loop E s rest r.2
    else
      some (r.1, r.2, rest)

/-- The code from label `out2` on: deregister the listener and close it. -/
def accept_out2 (s : Int) (w : World) : World :=
  sys_close s (qemu_set_fd_handler2 s none none w)

/-- The code from label `out` on: close the accepted descriptor, then `out2`. -/
def accept_out (s c : Int) (w : World) : World :=
  accept_out2 s (sys_close c w)

/-- The code of `tcp_accept_incoming_migration` after its `qemu_accept` loop
has ended with the value `c`. -/
def tcp_accept_after_loop (s c : Int) (fopen_socket_ok fopen_ft_ok : Bool)
    (ft_begin_ret : Int) (w : World) : World :=
  if c = -1 then
    accept_out2 s (w.emit .fprintf_stderr)
  else
    let w := w.emit (.qemu_fopen_socket c)
    if ¬ fopen_socket_ok then
      accept_out s c (w.emit .fprintf_stderr)
    else
      let f := QEMUFile.socket c
      let w := if w.ft_mode = .FT_INIT then { w with autostart := 0 } else w
      let w := w.emit (.process_incoming_migration f)
      if w.ft_mode = .FT_INIT then
        let w := w.emit (.socket_set_nodelay c)
        let w := w.emit (.qemu_fopen_ft_trans s c)
        if ¬ fopen_ft_ok then
          accept_out s c (w.emit .fprintf_stderr)
        else
          let f := QEMUFile.ft_trans s c
          let w := w.emit (.qemu_ft_trans_begin f)
          if ft_begin_ret < 0 then
            accept_out s c w
          else
            let w := qemu_set_fd_handler2 c (some .ft_trans_incoming) none w
            let w := ft_trans_schedule_replay f w
            { w with ft_mode := .FT_TRANSACTION_RECV }
      else
        accept_out s c (w.emit (.qemu_fclose f))

/-- Source `tcp_accept_incoming_migration` on listener `s`.  `acc` holds the
outcomes of the successive `qemu_accept` calls, `fopen_socket_ok` and
`fopen_ft_ok` tell whether `qemu_fopen_socket` and `qemu_fopen_ft_trans` return
a handle, and `ft_begin_ret` is the return value of `qemu_ft_trans_begin`.
The collaborators called here do not assign `ft_mode`. -/
def tcp_accept_incoming_migration (E : Errnos) (s : Int) (acc : List Outcome)
    (fopen_socket_ok fopen_ft_ok : Bool) (ft_begin_ret : Int) (w : World) :
    Option (World × List Outcome) :=
  match accept_loop E s acc w with
  | none => none
  | some (c, w, rest) =>
    some (tcp_accept_after_loop s c fopen_socket_ok fopen_ft_ok ft_begin_ret w, rest)

/-- Source `tcp_start_incoming_migration`.  `parsed` is the return value of
`parse_host_port`; `sock`, `bind_o` and `listen_o` are the outcomes of
`qemu_socket`, `bind` and `listen`. -/
def tcp_start_incoming_migration (E : Errnos) (parsed : Int)
    (sock bind_o listen_o : Outcome) (w : World) : Int × World :=
  let w := w.emit .parse_host_port
  if parsed < 0 then (-E.EINVAL, w.emit .fprintf_stderr)
  else
    let r := sys_call .qemu_socket sock w
    let s := r.1
    if s = -1 then (-socket_error r.2, r.2)
    else
      let w := r.2.emit (.setsockopt s)
      let b := sys_call (.bind s) bind_o w
      if b.1 = -1 then
        let w := sys_close s b.2
        (-socket_error w, w)
      else
        let l := sys_call (.listen s) listen_o b.2
        if l.1 = -1 then
          let w := sys_close s l.2
          (-socket_error w, w)
        else
          (0, qemu_set_fd_handler2 s (some .tcp_accept_incoming_migration) none l.2)

/-! ## Vocabulary of the statements -/

/-- The value the adapter's uniform contract assigns to an outcome: the count
for a success, minus the error code for a failure. -/
def Outcome.contract_value : Outcome → Int
  | .ok n => (n : Int)
  | .fail e => -e

/-- The outcome is within the C type `int`: the count is at most `INT_MAX`, or
the error code is an `int` whose negation is an `int` too. -/
def Outcome.fits_int : Outcome → Prop
  | .ok n => (n : Int) ≤ INT_MAX
  | .fail e => -INT_MAX ≤ e ∧ e ≤ INT_MAX

instance (o : Outcome) : Decidable o.fits_int := by
  cases o <;> unfold Outcome.fits_int <;> infer_instance

/-- The raw return value of a call with the given outcome. -/
def Outcome.ret : Outcome → Int
  | .ok n => (n : Int)
  | .fail _ => -1

/-- The calls `tcp_start_outgoing_migration` makes before its `connect` loop,
once the address has parsed and the socket has been created as `fd`. -/
def start_calls (fd detach : Int) : List Event :=
  [.parse_host_port, .qemu_mallocz, .qemu_socket, .socket_set_nonblock fd] ++
    (if detach = 0 then [.migrate_fd_monitor_suspend] else [])

/-- The world in which the `connect` loop of `tcp_start_outgoing_migration`
starts. -/
def start_world (fd detach : Int) (w : World) : World :=
  { w with trace := w.trace ++ start_calls fd detach }

/-- Number of calls of `e` made so far. -/
def World.calls (w : World) (e : Event) : Nat := w.trace.count e

/-- The changes of `ft_mode` the monotone relation of the spec allows in one
step: none, INIT to TRANSACTION_RECEIVING, TRANSACTION_RECEIVING to OFF or to
ERROR. -/
def monotone_step (m m1 : FtMode) : Prop :=
  m1 = m ∨ (m = .FT_INIT ∧ m1 = .FT_TRANSACTION_RECV) ∨
    (m = .FT_TRANSACTION_RECV ∧ (m1 = .FT_OFF ∨ m1 = .FT_ERROR))

instance (m m1 : FtMode) : Decidable (monotone_step m m1) := by
  unfold monotone_step; infer_instance

/-- The calls of the fault-tolerant path of `tcp_accept_incoming_migration`
from `qemu_fopen_socket` up to and including `qemu_ft_trans_begin`, on listener
`s` and accepted descriptor `c`. -/
def ft_open_calls (s c : Int) : List Event :=
  [.qemu_fopen_socket c, .process_incoming_migration (.socket c), .socket_set_nodelay c,
    .qemu_fopen_ft_trans s c, .qemu_ft_trans_begin (.ft_trans s c)]

/-- A world with nothing registered and nothing done yet. -/
def w0 : World :=
  { ft_mode := .FT_OFF, errno := 0, autostart := 1, vmstate := none,
    handlers := fun _ => FdHandler.none, trace := [] }

/-- The world `w0` with the fault-tolerance mode set to `m`. -/
def w0_mode (m : FtMode) : World := { w0 with ft_mode := m }

/-- An endpoint on descriptor 5. -/
def ep0 : FdMigrationState :=
  { fd := 5, state := .MIG_STATE_ACTIVE, bandwidth_limit := 0, blk := 0, shared := 0 }

/-! ## Lemmas on the primitives -/

theorem toInt32_of_range (x : Int) (h1 : -2147483648 ≤ x) (h2 : x ≤ 2147483647) :
    toInt32 x = x := by
  unfold toInt32; omega

@[simp]
theorem emit_trace (w : World) (e : Event) : (w.emit e).trace = w.trace ++ [e] := rfl
@[simp]
theorem emit_ft_mode (w : World) (e : Event) : (w.emit e).ft_mode = w.ft_mode := rfl
@[simp]
theorem emit_errno (w : World) (e : Event) : (w.emit e).errno = w.errno := rfl
@[simp]
theorem emit_handlers (w : World) (e : Event) : (w.emit e).handlers = w.handlers := rfl

/-! ## Socket I/O adapter: statements -/

/-- C1: `tcp_close` returns 0 and never changes `ft_mode`; with `fd != -1` and
`ft_mode != FT_INIT` it makes exactly one call, `close(fd)`, and sets `fd` to -1;
with `fd == -1` or `ft_mode == FT_INIT` it makes no call and leaves the endpoint
and the world as they were. -/
theorem tcp_close_spec (s : FdMigrationState) (w : World) :
    (tcp_close s w).1 = 0 ∧ (tcp_close s w).2.2.ft_mode = w.ft_mode ∧
    (s.fd ≠ -1 ∧ w.ft_mode ≠ FtMode.FT_INIT →
      (tcp_close s w).2.1.fd = -1 ∧
      (tcp_close s w).2.2.trace = w.trace ++ [Event.close s.fd]) ∧
    (s.fd = -1 ∨ w.ft_mode = FtMode.FT_INIT →
      (tcp_close s w).2.1 = s ∧ (tcp_close s w).2.2 = w) := by
  unfold tcp_close
  by_cases h : s.fd ≠ -1 ∧ w.ft_mode ≠ FtMode.FT_INIT
  · rw [if_pos h]
    refine ⟨rfl, rfl, fun _ => ⟨rfl, rfl⟩, ?_⟩
    rintro (h1 | h1)
    · exact absurd h1 h.1
    · exact absurd h1 h.2
  · rw [if_neg h]
    exact ⟨rfl, rfl, fun h1 => absurd h1 h, fun _ => ⟨rfl, rfl⟩⟩

/-- Witness of C1 on descriptor 5: in mode `FT_OFF` the descriptor is closed,
in mode `FT_INIT` nothing happens. -/
theorem tcp_close_spec_witness :
    ((ep0.fd ≠ -1 ∧ w0.ft_mode ≠ FtMode.FT_INIT) ∧
      (ep0.fd = -1 ∨ (w0_mode .FT_INIT).ft_mode = FtMode.FT_INIT)) ∧
    ((tcp_close ep0 w0).1 = 0 ∧ (tcp_close ep0 w0).2.1.fd = -1 ∧
      (tcp_close ep0 w0).2.2.trace = w0.trace ++ [Event.close ep0.fd]) ∧
    ((tcp_close ep0 (w0_mode .FT_INIT)).2.1 = ep0 ∧
      (tcp_close ep0 (w0_mode .FT_INIT)).2.2 = w0_mode .FT_INIT) :=
  ⟨⟨by decide, by decide⟩,
    ⟨(tcp_close_spec ep0 w0).1, (tcp_close_spec ep0 w0).2.2.1 (by decide)⟩,
    (tcp_close_spec ep0 (w0_mode .FT_INIT)).2.2.2 (by decide)⟩

/-- C2: after one `tcp_close`, a second `tcp_close` on the resulting endpoint,
in the resulting world or in any world with the same `ft_mode`, returns 0,
leaves the endpoint and the world unchanged, and so makes no `close` call. -/
theorem tcp_close_idempotent (s : FdMigrationState) (w w2 : World)
    (h : w2.ft_mode = w.ft_mode) :
    tcp_close (tcp_close s w).2.1 w2 = (0, (tcp_close s w).2.1, w2) ∧
    tcp_close (tcp_close s w).2.1 (tcp_close s w).2.2 = tcp_close s w := by
  unfold tcp_close
  by_cases h1 : s.fd ≠ -1 ∧ w.ft_mode ≠ FtMode.FT_INIT
  · simp [h1]
  · have h2 : ¬ (s.fd ≠ -1 ∧ w2.ft_mode ≠ FtMode.FT_INIT) := by rw [h]; exact h1
    simp only [if_neg h1, if_neg h2, and_self]

/-- Witness of C2 on descriptor 5 in mode `FT_OFF`. -/
theorem tcp_close_idempotent_witness :
    w0.ft_mode = w0.ft_mode ∧
    tcp_close (tcp_close ep0 w0).2.1 w0 = (0, (tcp_close ep0 w0).2.1, w0) ∧
    tcp_close (tcp_close ep0 w0).2.1 (tcp_close ep0 w0).2.2 = tcp_close ep0 w0 :=
  ⟨rfl, tcp_close_idempotent ep0 w0 w0 rfl⟩

theorem Outcome.ok_ret_ne (n : Nat) : ((n : Int) = -1) = False := by
  apply eq_false; omega

/-- The retry loop of `socket_read` over `k` interrupted calls followed by an
outcome that is not an interruption. -/
theorem socket_read_loop_eintr (E : Errnos) (s : FdMigrationState) (size k : Nat)
    (r : Outcome) (rest : List Outcome) (w : World) (hr : r ≠ .fail E.EINTR) :
    ∃ w1, socket_read_loop E s size (List.replicate k (.fail E.EINTR) ++ r :: rest) w
        = some (r.ret, w1, rest) ∧
      w1.trace = w.trace ++ List.replicate (k + 1) (Event.recv s.fd size) ∧
      (∀ e, r = .fail e → w1.errno = e) := by
  induction k generalizing w with
  | zero =>
    cases r with
    | ok n =>
      refine ⟨w.emit (.recv s.fd size), ?_, rfl, fun e h => by cases h⟩
      simp [socket_read_loop, sys_call, Outcome.ok_ret_ne, Outcome.ret]
    | fail e =>
      have he : e ≠ E.EINTR := fun h => hr (by rw [h])
      refine ⟨{ w.emit (.recv s.fd size) with errno := e }, ?_, rfl, ?_⟩
      · simp [socket_read_loop, sys_call, socket_error, he, Outcome.ret]
      · intro e1 h
        cases h
        rfl
  | succ k ih =>
    obtain ⟨w1, h1, h2, h3⟩ := ih { w.emit (.recv s.fd size) with errno := E.EINTR }
    refine ⟨w1, ?_, ?_, h3⟩
    · rw [List.replicate_succ, List.cons_append]
      simp only [socket_read_loop, sys_call, socket_error, and_self, if_true]
      exact h1
    · rw [h2]
      simp [List.replicate_succ]

/-- C3: when `recv` fails `k` times with `EINTR` and then has an outcome `r`
that is not an `EINTR` failure, `socket_read` returns (it does not run out of
outcomes), it has made exactly `k + 1` calls of `recv` and no other call, and
its result is the count `n` when `r` is a success with `n` bytes and `-e` when
`r` is a failure with code `e`; that result is never `-EINTR`. -/
theorem socket_read_retries_eintr (E : Errnos) (s : FdMigrationState) (size k : Nat)
    (r : Outcome) (rest : List Outcome) (w : World)
    (hE : 0 < E.EINTR) (hr : r ≠ .fail E.EINTR) (hfit : r.fits_int) :
    ∃ w1, socket_read E s size (List.replicate k (.fail E.EINTR) ++ r :: rest) w
        = some (r.contract_value, w1, rest) ∧
      w1.trace = w.trace ++ List.replicate (k + 1) (Event.recv s.fd size) ∧
      r.contract_value ≠ -E.EINTR := by
  obtain ⟨w1, h1, h2, h3⟩ := socket_read_loop_eintr E s size k r rest w hr
  refine ⟨w1, ?_, h2, ?_⟩
  · unfold socket_read
    rw [h1]
    cases r with
    | ok n =>
      have hn2 : (n : Int) ≤ 2147483647 := hfit
      simp only [Outcome.ret, Outcome.ok_ret_ne, if_false, Outcome.contract_value]
      rw [toInt32_of_range _ (by omega) hn2]
    | fail e =>
      have he : -2147483647 ≤ e ∧ e ≤ 2147483647 := hfit
      simp only [Outcome.ret, if_true, Outcome.contract_value, socket_error]
      rw [h3 e rfl, toInt32_of_range _ (by omega) (by omega)]
  · cases r with
    | ok n => simp only [Outcome.contract_value]; omega
    | fail e =>
      simp only [Outcome.contract_value]
      intro h
      exact hr (by rw [neg_inj.mp h])

/-- Witness of C3 on Linux: two interrupted calls, then a failure with code 104;
and one interrupted call, then a success with 7 bytes. -/
theorem socket_read_retries_eintr_witness :
    ((0 < linux.EINTR ∧ Outcome.fail 104 ≠ .fail linux.EINTR ∧ (Outcome.fail 104).fits_int) ∧
      (Outcome.ok 7 ≠ .fail linux.EINTR ∧ (Outcome.ok 7).fits_int)) ∧
    (∃ w1, socket_read linux ep0 64
        (List.replicate 2 (.fail linux.EINTR) ++ Outcome.fail 104 :: [.ok 7]) w0
        = some ((Outcome.fail 104).contract_value, w1, [.ok 7]) ∧
      w1.trace = w0.trace ++ List.replicate (2 + 1) (Event.recv ep0.fd 64) ∧
      (Outcome.fail 104).contract_value ≠ -linux.EINTR) ∧
    (∃ w1, socket_read linux ep0 64
        (List.replicate 1 (.fail linux.EINTR) ++ Outcome.ok 7 :: []) w0
        = some ((Outcome.ok 7).contract_value, w1, []) ∧
      w1.trace = w0.trace ++ List.replicate (1 + 1) (Event.recv ep0.fd 64) ∧
      (Outcome.ok 7).contract_value ≠ -linux.EINTR) :=
  ⟨⟨⟨by decide, by decide, by decide⟩, by decide, by decide⟩,
    socket_read_retries_eintr linux ep0 64 2 (.fail 104) [.ok 7] w0
      (by decide) (by decide) (by decide),
    socket_read_retries_eintr linux ep0 64 1 (.ok 7) [] w0
      (by decide) (by decide) (by decide)⟩

/-- C4, as the code behaves: `socket_write` makes exactly one call of `send`;
it returns the count `n` when the call succeeds with `n` bytes, and -1, the raw
result of `send`, when the call fails, whatever the error code `e`; the code
stays in `errno`, where `socket_errno` reads it. -/
theorem socket_write_returns_send_result (s : FdMigrationState) (size : Nat)
    (o : Outcome) (w : World) (hfit : o.fits_int) :
    (socket_write s size o w).2.trace = w.trace ++ [Event.send s.fd size] ∧
    (socket_write s size o w).1 =
      (match o with
        | .ok n => (n : Int)
        | .fail _ => -1) ∧
    (∀ e, o = .fail e → socket_errno s (socket_write s size o w).2 = e) := by
  cases o with
  | ok n =>
    have hn2 : (n : Int) ≤ 2147483647 := hfit
    refine ⟨rfl, ?_, fun e h => by cases h⟩
    simp only [socket_write, sys_call]
    rw [toInt32_of_range _ (by omega) hn2]
  | fail e =>
    refine ⟨rfl, rfl, fun e1 h => ?_⟩
    cases h
    rfl

/-- Witness of C4 as amended: a `send` that fails with code 32. -/
theorem socket_write_returns_send_result_witness :
    (Outcome.fail 32).fits_int ∧ (socket_write ep0 16 (.fail 32) w0).1 = -1 ∧
    socket_errno ep0 (socket_write ep0 16 (.fail 32) w0).2 = 32 :=
  ⟨by decide, (socket_write_returns_send_result ep0 16 (.fail 32) w0 (by decide)).2.1,
    (socket_write_returns_send_result ep0 16 (.fail 32) w0 (by decide)).2.2 32 rfl⟩

/-- C4 as stated fails: a `send` that fails with code 32 makes `socket_write`
return -1, not -32. -/
theorem socket_write_failure_is_not_negative_errno :
    (Outcome.fail 32).fits_int ∧
    (socket_write ep0 16 (.fail 32) w0).1 ≠ (Outcome.fail 32).contract_value := by
  decide

/-! ## Outgoing connector: statements -/

theorem Outcome.contract_value_ne_eintr (E : Errnos) (hE : 0 < E.EINTR) (r : Outcome)
    (hr : r ≠ .fail E.EINTR) : r.contract_value ≠ -E.EINTR := by
  cases r with
  | ok n => simp only [Outcome.contract_value]; omega
  | fail e =>
    simp only [Outcome.contract_value]
    intro h
    exact hr (by rw [neg_inj.mp h])

/-- One iteration of the `connect` loop on an interrupted call: nothing is
registered and the loop goes on. -/
theorem connect_loop_step_eintr (E : Errnos) (hE : E.wf) (s : FdMigrationState)
    (os : List Outcome) (w : World) :
    connect_loop E s (.fail E.EINTR :: os) w
      = connect_loop E s os { w.emit (.connect s.fd) with errno := E.EINTR } := by
  obtain ⟨_, _, _, h4, h5⟩ := hE
  simp [connect_loop, sys_call, socket_errno, socket_error, h4, h5]

/-- The last iteration of the `connect` loop: the outcome is not an
interruption, so the loop ends with `ret` the count or minus the error code,
after registering the write callback exactly when `ret` is `-EINPROGRESS` or
`-EWOULDBLOCK`. -/
theorem connect_loop_last (E : Errnos) (hE : E.wf) (s : FdMigrationState)
    (r : Outcome) (rest : List Outcome) (w : World) (hr : r ≠ .fail E.EINTR) :
    connect_loop E s (r :: rest) w
      = some (r.contract_value,
          (if r.contract_value = -E.EINPROGRESS ∨ r.contract_value = -E.EWOULDBLOCK then
            qemu_set_fd_handler2 s.fd none (some .tcp_wait_for_connect)
              (sys_call (.connect s.fd) r w).2
          else (sys_call (.connect s.fd) r w).2), rest) := by
  have hne := Outcome.contract_value_ne_eintr E hE.1 r hr
  cases r with
  | ok n =>
    simp only [Outcome.contract_value] at hne ⊢
    simp only [connect_loop, sys_call, Outcome.ok_ret_ne, if_false, hne]
  | fail e =>
    simp only [Outcome.contract_value] at hne ⊢
    simp only [connect_loop, sys_call, if_true, socket_errno, socket_error, hne, if_false]

/-- The `connect` loop over `k` interrupted calls followed by an outcome that
is not an interruption. -/
theorem connect_loop_eintr (E : Errnos) (hE : E.wf) (s : FdMigrationState) (k : Nat)
    (r : Outcome) (rest : List Outcome) (w : World) (hr : r ≠ .fail E.EINTR) :
    ∃ w1, connect_loop E s (List.replicate k (.fail E.EINTR) ++ r :: rest) w
        = some (r.contract_value, w1, rest) ∧
      w1.ft_mode = w.ft_mode ∧
      (r.contract_value = -E.EINPROGRESS ∨ r.contract_value = -E.EWOULDBLOCK →
        w1.trace = w.trace ++ List.replicate (k + 1) (Event.connect s.fd) ++
            [Event.qemu_set_fd_handler2 s.fd none (some .tcp_wait_for_connect)] ∧
          w1.handlers = Function.update w.handlers s.fd ⟨none, some .tcp_wait_for_connect⟩) ∧
      (¬ (r.contract_value = -E.EINPROGRESS ∨ r.contract_value = -E.EWOULDBLOCK) →
        w1.trace = w.trace ++ List.replicate (k + 1) (Event.connect s.fd) ∧
          w1.handlers = w.handlers) := by
  induction k generalizing w with
  | zero =>
    refine ⟨_, connect_loop_last E hE s r rest w hr, ?_, ?_, ?_⟩
    · split <;> cases r <;> rfl
    · intro hP
      rw [if_pos hP]
      cases r <;> exact ⟨rfl, rfl⟩
    · intro hP
      rw [if_neg hP]
      cases r <;> exact ⟨rfl, rfl⟩
  | succ k ih =>
    obtain ⟨w1, h1, h2, h3, h4⟩ := ih { w.emit (.connect s.fd) with errno := E.EINTR }
    refine ⟨w1, ?_, h2, ?_, ?_⟩
    · rw [List.replicate_succ, List.cons_append, connect_loop_step_eintr E hE]
      exact h1
    · intro hP
      obtain ⟨h5, h6⟩ := h3 hP
      refine ⟨?_, h6⟩
      rw [h5]
      simp [List.replicate_succ]
    · intro hP
      obtain ⟨h5, h6⟩ := h4 hP
      refine ⟨?_, h6⟩
      rw [h5]
      simp [List.replicate_succ]

/-- The endpoint `tcp_start_outgoing_migration` builds on descriptor `fd`. -/
theorem tcp_start_outgoing_migration_unfold (E : Errnos) (parsed bw detach blk inc : Int)
    (fd : Nat) (conn : List Outcome) (w : World) (hp : 0 ≤ parsed) :
    tcp_start_outgoing_migration E parsed bw detach blk inc (.ok fd) conn w =
      match connect_loop E ⟨fd, .MIG_STATE_ACTIVE, bw, blk, inc⟩ conn
          (start_world fd detach w) with
      | none => none
      | some (ret, w, rest) =>
        if ret < 0 ∧ ret ≠ -E.EINPROGRESS ∧ ret ≠ -E.EWOULDBLOCK then
          some (some ⟨fd, .MIG_STATE_ACTIVE, bw, blk, inc⟩, w.emit .migrate_fd_error, rest)
        else if ret ≥ 0 then
          some (some ⟨fd, .MIG_STATE_ACTIVE, bw, blk, inc⟩, w.emit .migrate_fd_connect, rest)
        else
          some (some ⟨fd, .MIG_STATE_ACTIVE, bw, blk, inc⟩, w, rest) := by
  have hw : (if detach = 0 then
        (((((w.emit .parse_host_port).emit .qemu_mallocz).emit .qemu_socket).emit
          (.socket_set_nonblock fd)).emit .migrate_fd_monitor_suspend)
      else ((((w.emit .parse_host_port).emit .qemu_mallocz).emit .qemu_socket).emit
          (.socket_set_nonblock fd))) = start_world fd detach w := by
    unfold start_world start_calls World.emit
    split <;> simp
  simp only [tcp_start_outgoing_migration, sys_call, not_lt.mpr hp, if_false,
    Outcome.ok_ret_ne, hw]

/-- The `getsockopt` loop over `j` interrupted calls followed by a success
that stores `v`: it ends with `ret = 0` and `val = v`, having registered
nothing. -/
theorem getsockopt_loop_eintr_ok (E : Errnos) (s : FdMigrationState) (j : Nat)
    (val v : Int) (rest : List SockoptOutcome) (w : World) :
    ∃ w1, getsockopt_loop E s val (List.replicate j (.fail E.EINTR) ++ .ok v :: rest) w
        = some (0, v, w1, rest) ∧
      w1.trace = w.trace ++ List.replicate (j + 1) (Event.getsockopt s.fd) ∧
      w1.handlers = w.handlers ∧ w1.ft_mode = w.ft_mode := by
  induction j generalizing w with
  | zero =>
    refine ⟨w.emit (.getsockopt s.fd), ?_, rfl, rfl, rfl⟩
    simp [getsockopt_loop, sys_getsockopt]
  | succ j ih =>
    obtain ⟨w1, h1, h2, h3, h4⟩ := ih { w.emit (.getsockopt s.fd) with errno := E.EINTR }
    refine ⟨w1, ?_, ?_, h3, h4⟩
    · rw [List.replicate_succ, List.cons_append]
      simp only [getsockopt_loop, sys_getsockopt, socket_errno, socket_error, and_self,
        if_true]
      exact h1
    · rw [h2]
      simp [List.replicate_succ]

/-- The callback `tcp_wait_for_connect` when `getsockopt` succeeds, after `j`
interrupted calls, with `SO_ERROR` equal to 0: it deregisters the descriptor
and then calls `migrate_fd_connect`. -/
theorem tcp_wait_for_connect_ok_zero (E : Errnos) (s : FdMigrationState) (j : Nat)
    (val : Int) (rest : List SockoptOutcome) (w : World) :
    ∃ w1, tcp_wait_for_connect E s val (List.replicate j (.fail E.EINTR) ++ .ok 0 :: rest) w
        = some (w1, rest) ∧
      w1.trace = w.trace ++ List.replicate (j + 1) (Event.getsockopt s.fd) ++
        [Event.qemu_set_fd_handler2 s.fd none none, Event.migrate_fd_connect] ∧
      w1.handlers = Function.update w.handlers s.fd ⟨none, none⟩ := by
  obtain ⟨w1, h1, h2, h3, _⟩ := getsockopt_loop_eintr_ok E s j val 0 rest w
  refine ⟨(qemu_set_fd_handler2 s.fd none none w1).emit .migrate_fd_connect, ?_, ?_, ?_⟩
  · simp [tcp_wait_for_connect, h1]
  · simp [qemu_set_fd_handler2, h2]
  · simp [qemu_set_fd_handler2, h3]

theorem count_replicate_ne (a b : Event) (n : Nat) (h : a ≠ b) :
    (List.replicate n a).count b = 0 := by
  rw [List.count_replicate]
  simp [h]

theorem count_start_calls_connect (fd detach : Int) :
    (start_calls fd detach).count .migrate_fd_connect = 0 := by
  unfold start_calls
  split <;> simp

theorem count_start_calls_error (fd detach : Int) :
    (start_calls fd detach).count .migrate_fd_error = 0 := by
  unfold start_calls
  split <;> simp

theorem count_start_calls_handler (fd detach fd1 : Int) (r wr : Option Callback) :
    (start_calls fd detach).count (.qemu_set_fd_handler2 fd1 r wr) = 0 := by
  unfold start_calls
  split <;> simp

/-- C5: when the address parses, the socket is created and the connection
completes, exactly one `migrate_fd_connect` call and no `migrate_fd_error` call
is made.  First part: `connect` succeeds after `k` interrupted calls, and
`tcp_start_outgoing_migration` itself makes the call and registers nothing.
Second part: `connect` reports `EINPROGRESS` or `EWOULDBLOCK` after `k`
interrupted calls; `tcp_start_outgoing_migration` makes neither call and leaves
`tcp_wait_for_connect` registered as write callback, and one firing of that
callback, with `getsockopt` succeeding after `j` interrupted calls and
`SO_ERROR == 0`, makes the one `migrate_fd_connect` call. -/
theorem outgoing_success_reports_connect_once (E : Errnos) (hE : E.wf)
    (parsed bw detach blk inc : Int) (fd k : Nat) (rest : List Outcome) (w : World)
    (hp : 0 ≤ parsed) :
    (∀ n : Nat, ∃ w1,
      tcp_start_outgoing_migration E parsed bw detach blk inc (.ok fd)
          (List.replicate k (.fail E.EINTR) ++ .ok n :: rest) w
        = some (some ⟨fd, .MIG_STATE_ACTIVE, bw, blk, inc⟩, w1, rest) ∧
      w1.calls .migrate_fd_connect = w.calls .migrate_fd_connect + 1 ∧
      w1.calls .migrate_fd_error = w.calls .migrate_fd_error ∧
      w1.handlers = w.handlers) ∧
    (∀ (e : Int) (j : Nat) (val : Int) (grest : List SockoptOutcome),
      e = E.EINPROGRESS ∨ e = E.EWOULDBLOCK → ∃ w1 w2,
      tcp_start_outgoing_migration E parsed bw detach blk inc (.ok fd)
          (List.replicate k (.fail E.EINTR) ++ .fail e :: rest) w
        = some (some ⟨fd, .MIG_STATE_ACTIVE, bw, blk, inc⟩, w1, rest) ∧
      w1.calls .migrate_fd_connect = w.calls .migrate_fd_connect ∧
      w1.calls .migrate_fd_error = w.calls .migrate_fd_error ∧
      (w1.handlers fd).fd_write = some .tcp_wait_for_connect ∧
      tcp_wait_for_connect E ⟨fd, .MIG_STATE_ACTIVE, bw, blk, inc⟩ val
          (List.replicate j (.fail E.EINTR) ++ .ok 0 :: grest) w1
        = some (w2, grest) ∧
      w2.calls .migrate_fd_connect = w.calls .migrate_fd_connect + 1 ∧
      w2.calls .migrate_fd_error = w.calls .migrate_fd_error ∧
      w2.handlers fd = FdHandler.none) := by
  constructor
  · intro n
    have hr : Outcome.ok n ≠ .fail E.EINTR := by simp
    obtain ⟨w1, h1, _, _, h4⟩ :=
      connect_loop_eintr E hE ⟨fd, .MIG_STATE_ACTIVE, bw, blk, inc⟩ k (.ok n) rest
        (start_world fd detach w) hr
    have hP : ¬ ((Outcome.ok n).contract_value = -E.EINPROGRESS ∨
        (Outcome.ok n).contract_value = -E.EWOULDBLOCK) := by
      obtain ⟨_, h2, h3, _, _⟩ := hE
      simp only [Outcome.contract_value]
      omega
    obtain ⟨h5, h6⟩ := h4 hP
    have hn : ¬ ((n : Int) < 0) := by omega
    refine ⟨w1.emit .migrate_fd_connect, ?_, ?_, ?_, ?_⟩
    · rw [tcp_start_outgoing_migration_unfold E parsed bw detach blk inc fd _ w hp, h1]
      simp [Outcome.contract_value, hn]
    · simp [World.calls, h5, start_world, List.count_append, count_replicate_ne,
        count_start_calls_connect]
    · simp [World.calls, h5, start_world, List.count_append, count_replicate_ne,
        count_start_calls_error]
    · simp [h6, start_world]
  · intro e j val grest he
    have hr : Outcome.fail e ≠ .fail E.EINTR := by
      obtain ⟨_, _, _, h4, h5⟩ := hE
      rcases he with he | he <;> simp [he] <;> intro h
      · exact h4 h.symm
      · exact h5 h.symm
    obtain ⟨w1, h1, _, h3, _⟩ :=
      connect_loop_eintr E hE ⟨fd, .MIG_STATE_ACTIVE, bw, blk, inc⟩ k (.fail e) rest
        (start_world fd detach w) hr
    have hP : (Outcome.fail e).contract_value = -E.EINPROGRESS ∨
        (Outcome.fail e).contract_value = -E.EWOULDBLOCK := by
      simp only [Outcome.contract_value, neg_inj]
      exact he
    obtain ⟨h5, h6⟩ := h3 hP
    obtain ⟨w2, g1, g2, g3⟩ :=
      tcp_wait_for_connect_ok_zero E ⟨fd, .MIG_STATE_ACTIVE, bw, blk, inc⟩ j val grest w1
    have hlt : -e < 0 := by
      obtain ⟨_, h2, h3, _, _⟩ := hE
      rcases he with he | he <;> omega
    have hnot : ¬ (-e < 0 ∧ -e ≠ -E.EINPROGRESS ∧ -e ≠ -E.EWOULDBLOCK) := by
      simp only [Outcome.contract_value] at hP
      rcases hP with hP | hP <;> simp [hP]
    refine ⟨w1, w2, ?_, ?_, ?_, ?_, g1, ?_, ?_, ?_⟩
    · rw [tcp_start_outgoing_migration_unfold E parsed bw detach blk inc fd _ w hp, h1]
      simp only [Outcome.contract_value, if_neg hnot, if_neg (not_le.mpr hlt)]
    · simp [World.calls, h5, start_world, List.count_append, count_replicate_ne,
        count_start_calls_connect]
    · simp [World.calls, h5, start_world, List.count_append, count_replicate_ne,
        count_start_calls_error]
    · simp [h6]
    · simp [World.calls, g2, h5, start_world, List.count_append, count_replicate_ne,
        count_start_calls_connect]
    · simp [World.calls, g2, h5, start_world, List.count_append, count_replicate_ne,
        count_start_calls_error]
    · simp [g3, FdHandler.none]

/-- Witness of C5 on Linux: one interrupted `connect`, then success; and one
interrupted `connect`, then `EINPROGRESS`, then the callback with two
interrupted `getsockopt` calls before the successful one. -/
theorem outgoing_success_reports_connect_once_witness :
    (linux.wf ∧ (0 : Int) ≤ 0 ∧
      ((115 : Int) = linux.EINPROGRESS ∨ (115 : Int) = linux.EWOULDBLOCK)) ∧
    (∃ w1,
      tcp_start_outgoing_migration linux 0 0 1 0 0 (.ok 5)
          (List.replicate 1 (.fail linux.EINTR) ++ .ok 0 :: []) w0
        = some (some ⟨(5 : Nat), .MIG_STATE_ACTIVE, 0, 0, 0⟩, w1, []) ∧
      w1.calls .migrate_fd_connect = w0.calls .migrate_fd_connect + 1 ∧
      w1.calls .migrate_fd_error = w0.calls .migrate_fd_error ∧
      w1.handlers = w0.handlers) ∧
    (∃ w1 w2,
      tcp_start_outgoing_migration linux 0 0 1 0 0 (.ok 5)
          (List.replicate 1 (.fail linux.EINTR) ++ .fail 115 :: []) w0
        = some (some ⟨(5 : Nat), .MIG_STATE_ACTIVE, 0, 0, 0⟩, w1, []) ∧
      w1.calls .migrate_fd_connect = w0.calls .migrate_fd_connect ∧
      w1.calls .migrate_fd_error = w0.calls .migrate_fd_error ∧
      (w1.handlers (5 : Nat)).fd_write = some .tcp_wait_for_connect ∧
      tcp_wait_for_connect linux ⟨(5 : Nat), .MIG_STATE_ACTIVE, 0, 0, 0⟩ 0
          (List.replicate 2 (.fail linux.EINTR) ++ .ok 0 :: []) w1
        = some (w2, []) ∧
      w2.calls .migrate_fd_connect = w0.calls .migrate_fd_connect + 1 ∧
      w2.calls .migrate_fd_error = w0.calls .migrate_fd_error ∧
      w2.handlers (5 : Nat) = FdHandler.none) :=
  ⟨⟨by decide, by decide, by decide⟩,
    (outgoing_success_reports_connect_once linux (by decide) 0 0 1 0 0 5 1 [] w0
      (by decide)).1 0,
    (outgoing_success_reports_connect_once linux (by decide) 0 0 1 0 0 5 1 [] w0
      (by decide)).2 115 2 0 [] (by decide)⟩

/-- C6: when the address parses, the socket is created and `connect`, after `k`
interrupted calls, fails with a code other than `EINTR`, `EINPROGRESS` and
`EWOULDBLOCK`, `tcp_start_outgoing_migration` makes exactly one
`migrate_fd_error` call and no `migrate_fd_connect` call, makes no
`qemu_set_fd_handler2` call and leaves the table of callbacks as it was. -/
theorem outgoing_connect_failure_reports_error_once (E : Errnos) (hE : E.wf)
    (parsed bw detach blk inc : Int) (fd k : Nat) (e : Int) (rest : List Outcome)
    (w : World) (hp : 0 ≤ parsed) (he0 : 0 < e) (he1 : e ≠ E.EINTR)
    (he2 : e ≠ E.EINPROGRESS) (he3 : e ≠ E.EWOULDBLOCK) :
    ∃ w1,
      tcp_start_outgoing_migration E parsed bw detach blk inc (.ok fd)
          (List.replicate k (.fail E.EINTR) ++ .fail e :: rest) w
        = some (some ⟨fd, .MIG_STATE_ACTIVE, bw, blk, inc⟩, w1, rest) ∧
      w1.calls .migrate_fd_error = w.calls .migrate_fd_error + 1 ∧
      w1.calls .migrate_fd_connect = w.calls .migrate_fd_connect ∧
      (∀ fd1 r wr, w1.calls (.qemu_set_fd_handler2 fd1 r wr)
        = w.calls (.qemu_set_fd_handler2 fd1 r wr)) ∧
      w1.handlers = w.handlers := by
  have hr : Outcome.fail e ≠ .fail E.EINTR := by
    simp only [ne_eq, Outcome.fail.injEq]
    exact he1
  obtain ⟨w1, h1, _, _, h4⟩ :=
    connect_loop_eintr E hE ⟨fd, .MIG_STATE_ACTIVE, bw, blk, inc⟩ k (.fail e) rest
      (start_world fd detach w) hr
  have hP : ¬ ((Outcome.fail e).contract_value = -E.EINPROGRESS ∨
      (Outcome.fail e).contract_value = -E.EWOULDBLOCK) := by
    simp only [Outcome.contract_value, neg_inj, not_or]
    exact ⟨he2, he3⟩
  obtain ⟨h5, h6⟩ := h4 hP
  have hyes : -e < 0 ∧ -e ≠ -E.EINPROGRESS ∧ -e ≠ -E.EWOULDBLOCK := by
    simp only [ne_eq, neg_inj]
    exact ⟨by omega, he2, he3⟩
  refine ⟨w1.emit .migrate_fd_error, ?_, ?_, ?_, ?_, ?_⟩
  · rw [tcp_start_outgoing_migration_unfold E parsed bw detach blk inc fd _ w hp, h1]
    simp only [Outcome.contract_value, if_pos hyes]
  · simp [World.calls, h5, start_world, List.count_append, count_replicate_ne,
      count_start_calls_error]
  · simp [World.calls, h5, start_world, List.count_append, count_replicate_ne,
      count_start_calls_connect]
  · intro fd1 r wr
    simp [World.calls, h5, start_world, List.count_append, count_replicate_ne,
      count_start_calls_handler]
  · simp [h6, start_world]

/-- Witness of C6 on Linux: one interrupted `connect`, then `ECONNREFUSED`
(111). -/
theorem outgoing_connect_failure_reports_error_once_witness :
    (linux.wf ∧ (0 : Int) ≤ 0 ∧ (0 : Int) < 111 ∧ (111 : Int) ≠ linux.EINTR ∧
      (111 : Int) ≠ linux.EINPROGRESS ∧ (111 : Int) ≠ linux.EWOULDBLOCK) ∧
    ∃ w1,
      tcp_start_outgoing_migration linux 0 0 1 0 0 (.ok 5)
          (List.replicate 1 (.fail linux.EINTR) ++ .fail 111 :: []) w0
        = some (some ⟨(5 : Nat), .MIG_STATE_ACTIVE, 0, 0, 0⟩, w1, []) ∧
      w1.calls .migrate_fd_error = w0.calls .migrate_fd_error + 1 ∧
      w1.calls .migrate_fd_connect = w0.calls .migrate_fd_connect ∧
      (∀ fd1 r wr, w1.calls (.qemu_set_fd_handler2 fd1 r wr)
        = w0.calls (.qemu_set_fd_handler2 fd1 r wr)) ∧
      w1.handlers = w0.handlers :=
  ⟨⟨by decide, by decide, by decide, by decide, by decide, by decide⟩,
    outgoing_connect_failure_reports_error_once linux (by decide) 0 0 1 0 0 5 1 111 [] w0
      (by decide) (by decide) (by decide) (by decide) (by decide)⟩

/-- C7 at a failing `getsockopt`: `connect` reports `EINPROGRESS` (115), so
`tcp_start_outgoing_migration` registers `tcp_wait_for_connect` on descriptor
5; the callback fires and `getsockopt` fails with `EBADF` (9).  The callback
then makes two calls only, `getsockopt` and `migrate_fd_error`, with no
`qemu_set_fd_handler2` between them, and the write callback of descriptor 5 is
still registered when it returns. -/
theorem tcp_wait_for_connect_reports_error_while_registered :
    ∃ w1 w2,
      tcp_start_outgoing_migration linux 0 0 1 0 0 (.ok 5) [.fail 115] w0
        = some (some ep0, w1, []) ∧
      (w1.handlers 5).fd_write = some .tcp_wait_for_connect ∧
      tcp_wait_for_connect linux ep0 0 [.fail 9] w1 = some (w2, []) ∧
      w2.trace = w1.trace ++ [Event.getsockopt 5, Event.migrate_fd_error] ∧
      (w2.handlers 5).fd_write = some .tcp_wait_for_connect :=
  ⟨_, _, rfl, rfl, rfl, rfl, rfl⟩

/-! ## Incoming acceptor: statements -/

/-- The `qemu_accept` loop over `k` interrupted calls followed by an outcome
that is not an interruption. -/
theorem accept_loop_eintr (E : Errnos) (s : Int) (k : Nat) (r : Outcome)
    (rest : List Outcome) (w : World) (hr : r ≠ .fail E.EINTR) :
    ∃ w1, accept_loop E s (List.replicate k (.fail E.EINTR) ++ r :: rest) w
        = some (r.ret, w1, rest) ∧
      w1.trace = w.trace ++ List.replicate (k + 1) (Event.qemu_accept s) ∧
      w1.handlers = w.handlers ∧ w1.ft_mode = w.ft_mode := by
  induction k generalizing w with
  | zero =>
    cases r with
    | ok n =>
      refine ⟨w.emit (.qemu_accept s), ?_, rfl, rfl, rfl⟩
      simp [accept_loop, sys_call, Outcome.ok_ret_ne, Outcome.ret]
    | fail e =>
      have he : e ≠ E.EINTR := fun h => hr (by rw [h])
      refine ⟨{ w.emit (.qemu_accept s) with errno := e }, ?_, rfl, rfl, rfl⟩
      simp [accept_loop, sys_call, socket_error, he, Outcome.ret]
  | succ k ih =>
    obtain ⟨w1, h1, h2, h3, h4⟩ := ih { w.emit (.qemu_accept s) with errno := E.EINTR }
    refine ⟨w1, ?_, ?_, h3, h4⟩
    · rw [List.replicate_succ, List.cons_append]
      simp only [accept_loop, sys_call, socket_error, and_self, if_true]
      exact h1
    · rw [h2]
      simp [List.replicate_succ]

/-- The callback ends in the code from `out2` on, except on the one path where
the mode is `FT_INIT` and the accept, both opens and the handshake succeed. -/
theorem tcp_accept_after_loop_out2 (s c : Int) (fs ff : Bool) (b : Int) (w : World)
    (h : ¬ (w.ft_mode = .FT_INIT ∧ c ≠ -1 ∧ fs = true ∧ ff = true ∧ 0 ≤ b)) :
    ∃ w1 pre, tcp_accept_after_loop s c fs ff b w = accept_out2 s w1 ∧
      w1.ft_mode = w.ft_mode ∧ w1.trace = w.trace ++ pre := by
  unfold tcp_accept_after_loop
  by_cases hc : c = -1
  · rw [if_pos hc]
    exact ⟨_, [.fprintf_stderr], rfl, rfl, rfl⟩
  · rw [if_neg hc]
    cases fs with
    | false =>
      exact ⟨_, [.qemu_fopen_socket c, .fprintf_stderr, .close c], rfl, rfl,
        by simp [sys_close]⟩
    | true =>
      by_cases hm : w.ft_mode = .FT_INIT
      · cases ff with
        | false =>
          simp only [hm, if_true, emit_ft_mode]
          exact ⟨_, [.qemu_fopen_socket c, .process_incoming_migration (.socket c),
            .socket_set_nodelay c, .qemu_fopen_ft_trans s c, .fprintf_stderr, .close c],
            rfl, rfl, by simp [sys_close]⟩
        | true =>
          have hb : b < 0 := by
            by_contra hb
            exact h ⟨hm, hc, rfl, rfl, not_lt.mp hb⟩
          simp only [hm, if_true, emit_ft_mode, hb]
          exact ⟨_, ft_open_calls s c ++ [.close c], rfl, rfl,
            by simp [sys_close, ft_open_calls]⟩
      · simp only [hm, if_false, emit_ft_mode]
        exact ⟨_, [.qemu_fopen_socket c, .process_incoming_migration (.socket c),
          .qemu_fclose (.socket c), .close c], rfl, rfl, by simp [sys_close]⟩

theorem accept_out2_spec (s : Int) (w : World) :
    (accept_out2 s w).handlers s = FdHandler.none ∧
    (accept_out2 s w).trace
      = w.trace ++ [Event.qemu_set_fd_handler2 s none none, Event.close s] ∧
    (accept_out2 s w).ft_mode = w.ft_mode := by
  simp [accept_out2, sys_close, qemu_set_fd_handler2, FdHandler.none]

/-- The fault-tolerant path when the handshake succeeds: the callback returns
at once, without reaching `out`. -/
theorem tcp_accept_after_loop_ft_started (s c b : Int) (w : World)
    (hm : w.ft_mode = .FT_INIT) (hc : c ≠ -1) (hb : 0 ≤ b) :
    (tcp_accept_after_loop s c true true b w).ft_mode = .FT_TRANSACTION_RECV ∧
    (tcp_accept_after_loop s c true true b w).trace
      = w.trace ++ ft_open_calls s c ++
        [Event.qemu_set_fd_handler2 c (some .ft_trans_incoming) none,
          Event.event_tap_schedule_replay,
          Event.qemu_add_vm_change_state_handler (.ft_trans s c)] ∧
    (tcp_accept_after_loop s c true true b w).handlers
      = Function.update w.handlers c ⟨some .ft_trans_incoming, none⟩ := by
  have hb1 : ¬ (b < 0) := not_lt.mpr hb
  simp [tcp_accept_after_loop, hm, hc, hb1, qemu_set_fd_handler2, ft_trans_schedule_replay,
    ft_open_calls]

/-- The fault-tolerant path when the handshake fails: the code from `out` on
runs and `ft_mode` is not assigned. -/
theorem tcp_accept_after_loop_begin_fails (s c b : Int) (w : World)
    (hm : w.ft_mode = .FT_INIT) (hc : c ≠ -1) (hb : b < 0) :
    (tcp_accept_after_loop s c true true b w).ft_mode = .FT_INIT ∧
    (tcp_accept_after_loop s c true true b w).trace
      = w.trace ++ ft_open_calls s c ++
        [Event.close c, Event.qemu_set_fd_handler2 s none none, Event.close s] ∧
    (tcp_accept_after_loop s c true true b w).handlers s = FdHandler.none := by
  simp [tcp_accept_after_loop, hm, hc, hb, qemu_set_fd_handler2, accept_out, accept_out2,
    sys_close, ft_open_calls, FdHandler.none]

/-- The code after the accept loop changes `ft_mode` only from `FT_INIT` to
`FT_TRANSACTION_RECV`. -/
theorem tcp_accept_after_loop_ft_mode (s c : Int) (fs ff : Bool) (b : Int) (w : World) :
    (tcp_accept_after_loop s c fs ff b w).ft_mode = w.ft_mode ∨
      (w.ft_mode = .FT_INIT ∧
        (tcp_accept_after_loop s c fs ff b w).ft_mode = .FT_TRANSACTION_RECV) := by
  by_cases h : w.ft_mode = .FT_INIT ∧ c ≠ -1 ∧ fs = true ∧ ff = true ∧ 0 ≤ b
  · obtain ⟨hm, hc, rfl, rfl, hb⟩ := h
    exact Or.inr ⟨hm, (tcp_accept_after_loop_ft_started s c b w hm hc hb).1⟩
  · obtain ⟨w2, _, e1, e2, _⟩ := tcp_accept_after_loop_out2 s c fs ff b w h
    left
    rw [e1, (accept_out2_spec s w2).2.2, e2]

/-- C8, as the code behaves: on every path but one, when the callback returns
the listener `s` has no callback left and the last two calls made are the
deregistration of `s` and `close(s)`.  The exception is the path where the mode
is `FT_INIT` and the accept, both opens and the handshake succeed: there the
callback makes no `close` call and no `qemu_set_fd_handler2` call on `s` (it
registers `ft_trans_incoming` as read callback of the accepted descriptor
only), so the listener stays as it was, its descriptor having been handed to
`qemu_fopen_ft_trans`. -/
theorem accept_tears_down_listener_unless_ft_starts (E : Errnos) (s : Int) (k : Nat)
    (r : Outcome) (rest : List Outcome) (fs ff : Bool) (b : Int) (w : World)
    (hr : r ≠ .fail E.EINTR) :
    ∃ w1, tcp_accept_incoming_migration E s (List.replicate k (.fail E.EINTR) ++ r :: rest)
        fs ff b w = some (w1, rest) ∧
      (¬ (w.ft_mode = .FT_INIT ∧ r.ret ≠ -1 ∧ fs = true ∧ ff = true ∧ 0 ≤ b) →
        w1.handlers s = FdHandler.none ∧
        ∃ pre, w1.trace
          = w.trace ++ pre ++ [Event.qemu_set_fd_handler2 s none none, Event.close s]) ∧
      (w.ft_mode = .FT_INIT ∧ r.ret ≠ -1 ∧ fs = true ∧ ff = true ∧ 0 ≤ b →
        w1.ft_mode = .FT_TRANSACTION_RECV ∧
        w1.trace = w.trace ++ List.replicate (k + 1) (Event.qemu_accept s) ++
          ft_open_calls s r.ret ++
          [Event.qemu_set_fd_handler2 r.ret (some .ft_trans_incoming) none,
            Event.event_tap_schedule_replay,
            Event.qemu_add_vm_change_state_handler (.ft_trans s r.ret)] ∧
        w1.handlers = Function.update w.handlers r.ret ⟨some .ft_trans_incoming, none⟩) := by
  obtain ⟨wa, h1, h2, h3, h4⟩ := accept_loop_eintr E s k r rest w hr
  refine ⟨tcp_accept_after_loop s r.ret fs ff b wa, ?_, ?_, ?_⟩
  · simp only [tcp_accept_incoming_migration, h1]
  · intro h
    rw [← h4] at h
    obtain ⟨w2, pre, g1, _, g3⟩ := tcp_accept_after_loop_out2 s r.ret fs ff b wa h
    rw [g1]
    refine ⟨(accept_out2_spec s w2).1,
      List.replicate (k + 1) (Event.qemu_accept s) ++ pre, ?_⟩
    rw [(accept_out2_spec s w2).2.1, g3, h2]
    simp only [List.append_assoc]
  · rintro ⟨hm, hc, rfl, rfl, hb⟩
    rw [← h4] at hm
    obtain ⟨g1, g2, g3⟩ := tcp_accept_after_loop_ft_started s r.ret b wa hm hc hb
    refine ⟨g1, ?_, ?_⟩
    · rw [g2, h2]
    · rw [g3, h3]

/-- Witness of C8 as amended, on Linux with listener 3 and accepted descriptor
4 after one interrupted `qemu_accept`: in mode `FT_OFF` the listener is torn
down, in mode `FT_INIT` with a successful handshake the mode becomes
`FT_TRANSACTION_RECV`, `ft_trans_incoming` is the read callback of descriptor 4
and the entry of descriptor 3 is as before. -/
theorem accept_tears_down_listener_unless_ft_starts_witness :
    (Outcome.ok 4 ≠ .fail linux.EINTR ∧
      ¬ (w0.ft_mode = .FT_INIT ∧ (Outcome.ok 4).ret ≠ -1 ∧ true = true ∧ true = true ∧
        (0 : Int) ≤ 0) ∧
      ((w0_mode .FT_INIT).ft_mode = .FT_INIT ∧ (Outcome.ok 4).ret ≠ -1 ∧ true = true ∧
        true = true ∧ (0 : Int) ≤ 0)) ∧
    (∃ w1, tcp_accept_incoming_migration linux 3
        (List.replicate 1 (.fail linux.EINTR) ++ .ok 4 :: []) true true 0 w0 = some (w1, []) ∧
      w1.handlers 3 = FdHandler.none ∧
      ∃ pre, w1.trace
        = w0.trace ++ pre ++ [Event.qemu_set_fd_handler2 3 none none, Event.close 3]) ∧
    (∃ w1, tcp_accept_incoming_migration linux 3
        (List.replicate 1 (.fail linux.EINTR) ++ .ok 4 :: []) true true 0 (w0_mode .FT_INIT)
        = some (w1, []) ∧
      w1.ft_mode = .FT_TRANSACTION_RECV ∧
      w1.handlers 4 = ⟨some .ft_trans_incoming, none⟩ ∧
      w1.handlers 3 = (w0_mode .FT_INIT).handlers 3) := by
  refine ⟨⟨by decide, by decide, by decide⟩, ?_, ?_⟩
  · obtain ⟨w1, h1, h2, _⟩ :=
      accept_tears_down_listener_unless_ft_starts linux 3 1 (.ok 4) [] true true 0 w0
        (by decide)
    exact ⟨w1, h1, h2 (by decide)⟩
  · obtain ⟨w1, h1, _, h3⟩ :=
      accept_tears_down_listener_unless_ft_starts linux 3 1 (.ok 4) [] true true 0
        (w0_mode .FT_INIT) (by decide)
    obtain ⟨g1, _, g3⟩ := h3 (by decide)
    refine ⟨w1, h1, g1, ?_, ?_⟩
    · rw [g3]
      rfl
    · rw [g3]
      rfl

/-- C8 as stated fails: a listener on descriptor 3 is set up by
`tcp_start_incoming_migration` in mode `FT_INIT`; the accept callback fires,
`qemu_accept` returns 4 and both opens and the handshake succeed.  When the
callback returns, the accept callback is still registered on descriptor 3 and
no `close(3)` has been made. -/
theorem accept_ft_path_leaves_listener_open :
    ∃ wl w1,
      tcp_start_incoming_migration linux 0 (.ok 3) (.ok 0) (.ok 0) (w0_mode .FT_INIT)
        = (0, wl) ∧
      tcp_accept_incoming_migration linux 3 [.ok 4] true true 0 wl = some (w1, []) ∧
      (w1.handlers 3).fd_read = some .tcp_accept_incoming_migration ∧
      w1.handlers 3 ≠ FdHandler.none ∧
      Event.close 3 ∉ w1.trace :=
  ⟨_, _, rfl, rfl, rfl, by decide, by decide⟩

/-- C9, as the code behaves: `tcp_accept_incoming_migration` changes `ft_mode`
only from `FT_INIT` to `FT_TRANSACTION_RECV`; `ft_trans_incoming` assigns
`FT_ERROR` exactly when the stream reports an error and `ft_trans_reset`
assigns `FT_OFF` exactly when `running` is not 0, both whatever the current
mode is. -/
theorem ft_mode_mutations (E : Errnos) (s : Int) (k : Nat) (r : Outcome)
    (rest : List Outcome) (fs ff : Bool) (b : Int) (f : QEMUFile) (has_error : Bool)
    (running reason : Int) (w : World) (hr : r ≠ .fail E.EINTR) :
    (∃ w1, tcp_accept_incoming_migration E s (List.replicate k (.fail E.EINTR) ++ r :: rest)
        fs ff b w = some (w1, rest) ∧
      (w1.ft_mode = w.ft_mode ∨
        (w.ft_mode = .FT_INIT ∧ w1.ft_mode = .FT_TRANSACTION_RECV))) ∧
    (ft_trans_incoming f has_error w).ft_mode
      = (if has_error then FtMode.FT_ERROR else w.ft_mode) ∧
    (ft_trans_reset f running reason w).ft_mode
      = (if running ≠ 0 then FtMode.FT_OFF else w.ft_mode) := by
  refine ⟨?_, ?_, ?_⟩
  · obtain ⟨wa, g1, _, _, g4⟩ := accept_loop_eintr E s k r rest w hr
    refine ⟨tcp_accept_after_loop s r.ret fs ff b wa, ?_, ?_⟩
    · simp only [tcp_accept_incoming_migration, g1]
    · rw [← g4]
      exact tcp_accept_after_loop_ft_mode s r.ret fs ff b wa
  · cases has_error <;> rfl
  · unfold ft_trans_reset
    split <;> rfl

/-- Witness of C9 as amended, on Linux in mode `FT_TRANSACTION_RECV`: the
accept callback leaves the mode alone, `ft_trans_incoming` on a stream with an
error gives `FT_ERROR` and `ft_trans_reset` with the guest running gives
`FT_OFF`. -/
theorem ft_mode_mutations_witness :
    Outcome.ok 4 ≠ .fail linux.EINTR ∧
    (∃ w1, tcp_accept_incoming_migration linux 3
        (List.replicate 0 (.fail linux.EINTR) ++ .ok 4 :: []) true true 0
        (w0_mode .FT_TRANSACTION_RECV) = some (w1, []) ∧
      (w1.ft_mode = (w0_mode .FT_TRANSACTION_RECV).ft_mode ∨
        ((w0_mode .FT_TRANSACTION_RECV).ft_mode = .FT_INIT ∧
          w1.ft_mode = .FT_TRANSACTION_RECV))) ∧
    (ft_trans_incoming (.ft_trans 3 4) true (w0_mode .FT_TRANSACTION_RECV)).ft_mode
      = .FT_ERROR ∧
    (ft_trans_reset (.ft_trans 3 4) 1 0 (w0_mode .FT_TRANSACTION_RECV)).ft_mode
      = .FT_OFF :=
  ⟨by decide,
    (ft_mode_mutations linux 3 0 (.ok 4) [] true true 0 (.ft_trans 3 4) true 1 0
      (w0_mode .FT_TRANSACTION_RECV) (by decide)).1,
    (ft_mode_mutations linux 3 0 (.ok 4) [] true true 0 (.ft_trans 3 4) true 1 0
      (w0_mode .FT_TRANSACTION_RECV) (by decide)).2.1,
    (ft_mode_mutations linux 3 0 (.ok 4) [] true true 0 (.ft_trans 3 4) true 1 0
      (w0_mode .FT_TRANSACTION_RECV) (by decide)).2.2⟩

/-- C9 as stated fails: from mode `FT_INIT` the accept callback with a
successful handshake gives `FT_TRANSACTION_RECV`, `ft_trans_incoming` on a
stream with an error gives `FT_ERROR`, and `ft_trans_reset` with the guest
running then gives `FT_OFF`; the change from `FT_ERROR` to `FT_OFF` is not a
step of the monotone relation, in which `FT_ERROR` is terminal. -/
theorem ft_trans_reset_leaves_error_mode :
    ∃ w1,
      tcp_accept_incoming_migration linux 3 [.ok 4] true true 0 (w0_mode .FT_INIT)
        = some (w1, []) ∧
      w1.ft_mode = .FT_TRANSACTION_RECV ∧
      (ft_trans_incoming (.ft_trans 3 4) true w1).ft_mode = .FT_ERROR ∧
      (ft_trans_reset (.ft_trans 3 4) 1 0
        (ft_trans_incoming (.ft_trans 3 4) true w1)).ft_mode = .FT_OFF ∧
      ¬ monotone_step (ft_trans_incoming (.ft_trans 3 4) true w1).ft_mode
        (ft_trans_reset (.ft_trans 3 4) 1 0
          (ft_trans_incoming (.ft_trans 3 4) true w1)).ft_mode :=
  ⟨_, rfl, rfl, rfl, rfl, by decide⟩

/-- C10, as the code behaves: in mode `FT_INIT`, when `qemu_accept` returns `c`
after `k` interrupted calls, both opens succeed and `qemu_ft_trans_begin`
returns a negative value, the callback returns with `ft_mode` still `FT_INIT`;
after the handshake call it makes exactly three calls, `close(c)`, the
deregistration of the listener and `close(s)`, so the accepted descriptor is
closed and the listener has no callback left. -/
theorem accept_handshake_failure_keeps_ft_init (E : Errnos) (s : Int) (k c : Nat)
    (rest : List Outcome) (b : Int) (w : World)
    (hm : w.ft_mode = .FT_INIT) (hb : b < 0) :
    ∃ w1, tcp_accept_incoming_migration E s
        (List.replicate k (.fail E.EINTR) ++ .ok c :: rest) true true b w = some (w1, rest) ∧
      w1.ft_mode = .FT_INIT ∧
      w1.trace = w.trace ++ List.replicate (k + 1) (Event.qemu_accept s) ++
        ft_open_calls s c ++
        [Event.close c, Event.qemu_set_fd_handler2 s none none, Event.close s] ∧
      w1.handlers s = FdHandler.none := by
  have hr : Outcome.ok c ≠ .fail E.EINTR := by simp
  obtain ⟨wa, h1, h2, _, h4⟩ := accept_loop_eintr E s k (.ok c) rest w hr
  have hc : (c : Int) ≠ -1 := by omega
  rw [← h4] at hm
  obtain ⟨g1, g2, g3⟩ := tcp_accept_after_loop_begin_fails s c b wa hm hc hb
  refine ⟨tcp_accept_after_loop s c true true b wa, ?_, g1, ?_, g3⟩
  · simp only [tcp_accept_incoming_migration, h1, Outcome.ret]
  · rw [g2, h2]

/-- Witness of C10 as amended, on Linux with listener 3, accepted descriptor 4
and a handshake that returns -1. -/
theorem accept_handshake_failure_keeps_ft_init_witness :
    ((w0_mode .FT_INIT).ft_mode = .FT_INIT ∧ (-1 : Int) < 0) ∧
    ∃ w1, tcp_accept_incoming_migration linux 3
        (List.replicate 1 (.fail linux.EINTR) ++ .ok 4 :: []) true true (-1)
        (w0_mode .FT_INIT) = some (w1, []) ∧
      w1.ft_mode = .FT_INIT ∧
      w1.trace = (w0_mode .FT_INIT).trace ++ List.replicate (1 + 1) (Event.qemu_accept 3) ++
        ft_open_calls 3 (4 : Nat) ++
        [Event.close (4 : Nat), Event.qemu_set_fd_handler2 3 none none, Event.close 3] ∧
      w1.handlers 3 = FdHandler.none :=
  ⟨⟨by decide, by decide⟩,
    accept_handshake_failure_keeps_ft_init linux 3 1 4 [] (-1) (w0_mode .FT_INIT)
      (by decide) (by decide)⟩

/-- C10 as stated fails: with a listener on descriptor 3 in mode `FT_INIT`,
`qemu_accept` returning 4, both opens succeeding and `qemu_ft_trans_begin`
returning -1, the callback returns with `ft_mode` equal to `FT_INIT`, not
`FT_ERROR`. -/
theorem accept_handshake_failure_mode_is_not_error :
    ∃ wl w1,
      tcp_start_incoming_migration linux 0 (.ok 3) (.ok 0) (.ok 0) (w0_mode .FT_INIT)
        = (0, wl) ∧
      tcp_accept_incoming_migration linux 3 [.ok 4] true true (-1) wl = some (w1, []) ∧
      w1.ft_mode = .FT_INIT ∧ w1.ft_mode ≠ .FT_ERROR :=
  ⟨_, _, rfl, rfl, rfl, by decide⟩

end MigrationTcp
